import Mathlib

/-!
Shallow embedding of the chaind PostgreSQL schema upgrader
(`services/chaindb/postgresql/upgrader.go`).

The database is modelled as a `Store` (metadata key/value pairs, the set of
columns present, the log of executed SQL statements, and the proposer-slashing
rows written back by the backfill).  A run carries a `DBState`: the committed
store, the optional pending store of the ambient transaction, and an
append-only event trace recording transaction begin/commit/cancel, executed
statements and catalog queries.  Outcomes of the external collaborators
(metadata store, transaction scope, SQL execution, the domain read/write APIs
and the hash function) are supplied by an `Env`.
-/

namespace ChaindUpgrader

/-- Content of the byte blob stored under the "schema" metadata key:
absent/empty data, a well-formed JSON version document, or malformed bytes. -/
inductive Blob where
  | empty
  | versionDoc (n : Nat)
  | malformed
deriving DecidableEq, Repr

/-- Go error values: a base error, the `ErrNoTransaction` sentinel, or an
`errors.Wrap` of an inner error with a message. -/
inductive GoError where
  | base (msg : String)
  | noTransaction
  | wrap (msg : String) (err : GoError)
deriving DecidableEq, Repr

/-- Modelled from the spec: the distinct no-active-transaction sentinel
`ErrNoTransaction` (declared outside the visible source). -/
def ErrNoTransaction : GoError := GoError.noTransaction

/-- The five fields of `spec.BeaconBlockHeader` populated by
`addProposerSlashingBlockRoots`; roots are abstracted to naturals. -/
structure BeaconBlockHeader where
  slot : Nat
  proposerIndex : Nat
  parentRoot : Nat
  stateRoot : Nat
  bodyRoot : Nat
deriving DecidableEq, Repr

/-- The fields of a proposer-slashing row read and written by the backfill. -/
structure ProposerSlashing where
  header1Slot : Nat
  header1ProposerIndex : Nat
  header1ParentRoot : Nat
  header1StateRoot : Nat
  header1BodyRoot : Nat
  block1Root : Nat
  header2Slot : Nat
  header2ProposerIndex : Nat
  header2ParentRoot : Nat
  header2StateRoot : Nat
  header2BodyRoot : Nat
  block2Root : Nat
deriving DecidableEq, Repr

/-- The twenty-three SQL statements executed by the migration steps, one
constructor per `tx.Exec` call site; `stmtSQL` gives each one's source text. -/
inductive Stmt where
  | dropNotNullActivationEligibilityEpoch
  | dropNotNullActivationEpoch
  | dropNotNullExitEpoch
  | dropNotNullWithdrawableEpoch
  | nullActivationEligibilityEpoch
  | nullActivationEpoch
  | nullExitEpoch
  | nullWithdrawableEpoch
  | createDepositsTable
  | createDepositsIndex
  | createChainSpecTable
  | createGenesisTable
  | addBlock1Root
  | addBlock2Root
  | setNotNullBlock1Root
  | setNotNullBlock2Root
  | createETH1DepositsTable
  | createETH1DepositsIndex1
  | createETH1DepositsIndex2
  | createETH1DepositsIndex3
  | createETH1DepositsIndex4
  | createETH1DepositsIndex5
  | addAggregationIndices
deriving DecidableEq, Repr

/-- The exact SQL text of each statement, as written in the source. -/
def stmtSQL : Stmt → String
  | Stmt.dropNotNullActivationEligibilityEpoch => "ALTER TABLE t_validators ALTER COLUMN f_activation_eligibility_epoch DROP NOT NULL"
  | Stmt.dropNotNullActivationEpoch => "ALTER TABLE t_validators ALTER COLUMN f_activation_epoch DROP NOT NULL"
  | Stmt.dropNotNullExitEpoch => "ALTER TABLE t_validators ALTER COLUMN f_exit_epoch DROP NOT NULL"
  | Stmt.dropNotNullWithdrawableEpoch => "ALTER TABLE t_validators ALTER COLUMN f_withdrawable_epoch DROP NOT NULL"
  | Stmt.nullActivationEligibilityEpoch => "UPDATE t_validators SET f_activation_eligibility_epoch = NULL WHERE f_activation_eligibility_epoch = -1"
  | Stmt.nullActivationEpoch => "UPDATE t_validators SET f_activation_epoch = NULL WHERE f_activation_epoch = -1"
  | Stmt.nullExitEpoch => "UPDATE t_validators SET f_exit_epoch = NULL WHERE f_exit_epoch = -1"
  | Stmt.nullWithdrawableEpoch => "UPDATE t_validators SET f_withdrawable_epoch = NULL WHERE f_withdrawable_epoch = -1"
  | Stmt.createDepositsTable => "CREATE TABLE t_deposits (\n  f_inclusion_slot         BIGINT NOT NULL\n ,f_inclusion_block_root   BYTEA NOT NULL REFERENCES t_blocks(f_root) ON DELETE CASCADE\n ,f_inclusion_index        BIGINT NOT NULL\n ,f_validator_pubkey       BYTEA NOT NULL\n ,f_withdrawal_credentials BYTEA NOT NULL\n ,f_amount                 BIGINT NOT NULL\n)"
  | Stmt.createDepositsIndex => "CREATE UNIQUE INDEX i_deposits_1 ON t_deposits(f_inclusion_slot,f_inclusion_block_root,f_inclusion_index)"
  | Stmt.createChainSpecTable => "CREATE TABLE t_chain_spec (\n  f_key TEXT NOT NULL PRIMARY KEY\n ,f_value TEXT NOT NULL\n)"
  | Stmt.createGenesisTable => "CREATE TABLE t_genesis (\n  f_validators_root BYTEA NOT NULL PRIMARY KEY\n ,f_time TIMESTAMPTZ NOT NULL\n ,f_fork_version BYTEA NOT NULL\n)"
  | Stmt.addBlock1Root => "\nALTER TABLE t_proposer_slashings\nADD COLUMN f_block_1_root BYTEA\n"
  | Stmt.addBlock2Root => "\nALTER TABLE t_proposer_slashings\nADD COLUMN f_block_2_root BYTEA\n"
  | Stmt.setNotNullBlock1Root => "\nALTER TABLE t_proposer_slashings\nALTER COLUMN f_block_1_root SET NOT NULL\n"
  | Stmt.setNotNullBlock2Root => "\nALTER TABLE t_proposer_slashings\nALTER COLUMN f_block_2_root SET NOT NULL\n"
  | Stmt.createETH1DepositsTable => "\nCREATE TABLE IF NOT EXISTS t_eth1_deposits (\n  f_eth1_block_number      BIGINT NOT NULL\n ,f_eth1_block_hash        BYTEA NOT NULL\n ,f_eth1_block_timestamp   TIMESTAMPTZ NOT NULL\n ,f_eth1_tx_hash           BYTEA NOT NULL\n ,f_eth1_log_index         BIGINT NOT NULL\n ,f_eth1_sender            BYTEA NOT NULL\n ,f_eth1_recipient         BYTEA NOT NULL\n ,f_eth1_gas_used          BIGINT NOT NULL\n ,f_eth1_gas_price         BIGINT NOT NULL\n ,f_deposit_index          BIGINT UNIQUE NOT NULL\n ,f_validator_pubkey       BYTEA NOT NULL\n ,f_withdrawal_credentials BYTEA NOT NULL\n ,f_signature              BYTEA NOT NULL\n ,f_amount                 BIGINT NOT NULL\n)"
  | Stmt.createETH1DepositsIndex1 => "CREATE UNIQUE INDEX IF NOT EXISTS i_eth1_deposits_1 ON t_eth1_deposits(f_eth1_block_hash, f_eth1_tx_hash, f_eth1_log_index)"
  | Stmt.createETH1DepositsIndex2 => "CREATE INDEX IF NOT EXISTS i_eth1_deposits_2 ON t_eth1_deposits(f_validator_pubkey)"
  | Stmt.createETH1DepositsIndex3 => "CREATE INDEX IF NOT EXISTS i_eth1_deposits_3 ON t_eth1_deposits(f_withdrawal_credentials)"
  | Stmt.createETH1DepositsIndex4 => "CREATE INDEX IF NOT EXISTS i_eth1_deposits_4 ON t_eth1_deposits(f_eth1_sender)"
  | Stmt.createETH1DepositsIndex5 => "CREATE INDEX IF NOT EXISTS i_eth1_deposits_5 ON t_eth1_deposits(f_eth1_recipient)"
  | Stmt.addAggregationIndices => "\nALTER TABLE t_attestations\nADD COLUMN f_aggregation_indices BIGINT[]\n"

/-- Database content visible to the upgrader: metadata key/value pairs, the
(table, column) pairs present in the catalog, the executed SQL statements, and
the proposer-slashing rows written back. -/
structure Store where
  meta : List (String × Blob)
  cols : List (String × String)
  applied : List Stmt
  slashings : List ProposerSlashing
deriving DecidableEq, Repr

/-- Observable events of a run (an append-only trace, never rolled back). -/
inductive Event where
  | beganTx
  | committedTx
  | cancelledTx
  | execStmt (sql : Stmt)
  | queried (tableName columnName : String)
deriving DecidableEq, Repr

/-- State threaded through a run: the committed store, the pending store of
the ambient transaction (if one is active), and the event trace. -/
structure DBState where
  committed : Store
  tx : Option Store
  events : List Event
deriving DecidableEq, Repr

/-- Outcomes of the external collaborators: whether each primitive succeeds,
what the driver's scan yields on an empty result, the proposer slashings
returned by the range read, and the injected hash function. -/
structure Env where
  metadataOk : Bool
  setMetadataOk : Bool
  beginOk : Bool
  commitOk : Bool
  execOk : Stmt → Bool
  queryOk : Bool
  scanEmpty : Except GoError Bool
  slashingsResult : Except GoError (List ProposerSlashing)
  hashTreeRoot : BeaconBlockHeader → Except GoError Nat
  setProposerSlashingOk : ProposerSlashing → Bool

/-- State-plus-error monad in which every Go function returning `error` (or a
value and an `error`) is embedded. -/
def M (α : Type) : Type := DBState → Except GoError α × DBState

instance : Monad M where
  pure a := fun st => (Except.ok a, st)
  bind x f := fun st =>
    match x st with
    | (Except.ok a, st') => f a st'
    | (Except.error e, st') => (Except.error e, st')

/-- Run a computation and wrap any error it returns (`errors.Wrap`). -/
def withWrap {α : Type} (msg : String) (x : M α) : M α := fun st =>
  match x st with
  | (Except.error e, st') => (Except.error (GoError.wrap msg e), st')
  | r => r

/-- Return an error without touching the state. -/
def throwM {α : Type} (e : GoError) : M α := fun st => (Except.error e, st)

/-- The `tx := s.tx(ctx); if tx == nil { return ErrNoTransaction }` prologue
shared by every migration step and by `setVersion`. -/
def requireTx : M Unit := fun st =>
  match st.tx with
  | some _ => (Except.ok (), st)
  | none => (Except.error ErrNoTransaction, st)

/-- Modelled from the spec: `BeginTx` of the transaction scope (not in the
visible source).  On success the new scope's pending store starts as a copy of
the committed store. -/
def BeginTx (env : Env) : M Unit := fun st =>
  if env.beginOk then
    (Except.ok (), { st with tx := some st.committed, events := st.events ++ [Event.beganTx] })
  else
    (Except.error (GoError.base "failed to begin tx"), st)

/-- Modelled from the spec: `cancel` of the transaction scope — the pending
store is discarded, the committed store untouched. -/
def cancelTx (st : DBState) : DBState :=
  { st with tx := none, events := st.events ++ [Event.cancelledTx] }

/-- Modelled from the spec: `CommitTx` — on success the pending store becomes
the committed store; on failure the state is unchanged. -/
def CommitTx (env : Env) : M Unit := fun st =>
  match st.tx with
  | some t =>
      if env.commitOk then
        (Except.ok (), { committed := t, tx := none, events := st.events ++ [Event.committedTx] })
      else
        (Except.error (GoError.base "failed to commit tx"), st)
  | none => (Except.error ErrNoTransaction, st)

/-- Effect of one executed SQL statement on the pending store: the statement is
recorded, and the `ADD COLUMN` statements add their (table, column) pair to the
catalog. -/
def applySql (s : Store) (sql : Stmt) : Store :=
  match sql with
  | Stmt.addBlock1Root =>
      { s with cols := s.cols ++ [("t_proposer_slashings", "f_block_1_root")], applied := s.applied ++ [sql] }
  | Stmt.addBlock2Root =>
      { s with cols := s.cols ++ [("t_proposer_slashings", "f_block_2_root")], applied := s.applied ++ [sql] }
  | Stmt.addAggregationIndices =>
      { s with cols := s.cols ++ [("t_attestations", "f_aggregation_indices")], applied := s.applied ++ [sql] }
  | _ => { s with applied := s.applied ++ [sql] }

/-- `tx.Exec(ctx, sql)` followed by `errors.Wrap(err, msg)` on failure, as in
every migration step.  The statement is issued against the ambient pending
store; success is decided by the environment. -/
def exec (env : Env) (sql : Stmt) (msg : String) : M Unit := fun st =>
  match st.tx with
  | some t =>
      if env.execOk sql then
        (Except.ok (), { st with tx := some (applySql t sql), events := st.events ++ [Event.execStmt sql] })
      else
        (Except.error (GoError.wrap msg (GoError.base "exec failed")), { st with events := st.events ++ [Event.execStmt sql] })
  | none => (Except.error ErrNoTransaction, st)

/-- Modelled from the spec: the metadata store's `get`, scoped to the ambient
transaction when one is active; connectivity failure is decided by the
environment, absence yields empty data. -/
def Metadata (env : Env) (key : String) : M Blob := fun st =>
  if env.metadataOk then
    (Except.ok (((st.tx.getD st.committed).meta.lookup key).getD Blob.empty), st)
  else
    (Except.error (GoError.base "failed to read metadata"), st)

/-- Replace the value stored under a metadata key. -/
def metaSet (s : Store) (key : String) (value : Blob) : Store :=
  { s with meta := (key, value) :: s.meta.filter (fun kv => kv.1 != key) }

/-- Modelled from the spec: the metadata store's `set`, scoped to the ambient
transaction when one is active. -/
def SetMetadata (env : Env) (key : String) (value : Blob) : M Unit := fun st =>
  if env.setMetadataOk then
    match st.tx with
    | some t => (Except.ok (), { st with tx := some (metaSet t key value) })
    | none => (Except.ok (), { st with committed := metaSet st.committed key value })
  else
    (Except.error (GoError.base "failed to write metadata"), st)

/-- The query string `columnExists` builds with `fmt.Sprintf`. -/
def columnQuerySQL (tableName columnName : String) : String :=
  "SELECT true\nFROM pg_attribute\nWHERE attrelid = '" ++ tableName ++ "'::regclass\n  AND attname = '" ++ columnName ++ "'\n  AND NOT attisdropped"

/-- Rows returned by the catalog query of `columnExists` against a given view:
one row holding `true` when the column is present, no row otherwise. -/
def columnQueryRows (view : Store) (tableName columnName : String) : List Bool :=
  if view.cols.contains (tableName, columnName) then [true] else []

/-- `tx.Query` followed by `rows.Next()` (result ignored, as in the source) and
`rows.Scan(&found)`.  With a row present the scan yields it; with no row the
driver-dependent scan outcome is supplied by the environment and a scan error
is wrapped as in the source. -/
def queryColumn (env : Env) (view : Store) (tableName columnName : String) : Except GoError Bool :=
  if env.queryOk then
    match columnQueryRows view tableName columnName with
    | found :: _ => Except.ok found
    | [] =>
        match env.scanEmpty with
        | Except.ok b => Except.ok b
        | Except.error e => Except.error (GoError.wrap "failed to scan row" e)
  else
    Except.error (GoError.base "query failed")

/-- `columnExists`: reuses the ambient transaction when one is active;
otherwise begins a transaction of its own (wrapping a begin failure) and
cancels it before returning (`defer cancel()`). -/
def columnExists (env : Env) (tableName columnName : String) : M Bool := fun st =>
  match st.tx with
  | some t =>
      (queryColumn env t tableName columnName,
        { st with events := st.events ++ [Event.queried tableName columnName] })
  | none =>
      match BeginTx env st with
      | (Except.error e, st') => (Except.error (GoError.wrap "failed to begin transaction" e), st')
      | (Except.ok _, st') =>
          let view := st'.tx.getD st'.committed
          let st'' := { st' with events := st'.events ++ [Event.queried tableName columnName] }
          (queryColumn env view tableName columnName, cancelTx st'')

/-- `version`: read the "schema" metadata; empty data means version 0;
malformed data fails to unmarshal. -/
def version (env : Env) : M Nat := do
  let data ← withWrap "failed to obtain schema metadata" (Metadata env "schema")
  match data with
  | Blob.empty => pure 0
  | Blob.versionDoc n => pure n
  | Blob.malformed => throwM (GoError.wrap "failed to unmarshal metadata JSON" (GoError.base "invalid JSON"))

/-- `setVersion`: requires the ambient transaction, then stores the marshalled
version document (marshalling of the version record cannot fail). -/
def setVersion (env : Env) (v : Nat) : M Unit := do
  requireTx
  SetMetadata env "schema" (Blob.versionDoc v)

/-- `validatorsEpochNull`: drop the NOT NULL constraints on the four epoch
columns of `t_validators`, then convert the sentinel -1 values to NULL. -/
def validatorsEpochNull (env : Env) : M Unit := do
  requireTx
  exec env Stmt.dropNotNullActivationEligibilityEpoch
    "failed to drop NOT NULL constraint on f_activation_eligibility_epoch"
  exec env Stmt.dropNotNullActivationEpoch
    "failed to drop NOT NULL constraint on f_activation_epoch"
  exec env Stmt.dropNotNullExitEpoch
    "failed to drop NOT NULL constraint on f_exit_epoch"
  exec env Stmt.dropNotNullWithdrawableEpoch
    "failed to drop NOT NULL constraint on f_withdrawable_epoch"
  exec env Stmt.nullActivationEligibilityEpoch
    "failed to change -1 to NULL on f_activation_eligibility_epoch"
  exec env Stmt.nullActivationEpoch
    "failed to change -1 to NULL on f_activation_epoch"
  exec env Stmt.nullExitEpoch
    "failed to change -1 to NULL on f_exit_epoch"
  exec env Stmt.nullWithdrawableEpoch
    "failed to change -1 to NULL on f_withdrawable_epoch"

/-- `createDeposits`: create the `t_deposits` table and its unique index. -/
def createDeposits (env : Env) : M Unit := do
  requireTx
  exec env Stmt.createDepositsTable "failed to create deposits table"
  exec env Stmt.createDepositsIndex "failed to create deposits index"

/-- `createChainSpec`: create the `t_chain_spec` table. -/
def createChainSpec (env : Env) : M Unit := do
  requireTx
  exec env Stmt.createChainSpecTable "failed to create chain spec table"

/-- `createGenesis`: create the `t_genesis` table. -/
def createGenesis (env : Env) : M Unit := do
  requireTx
  exec env Stmt.createGenesisTable "failed to create genesis table"

/-- Modelled from the spec: the range read of proposer slashings over an
inclusive slot bound (a higher-level domain read API, not in the visible
source); its outcome is supplied by the environment. -/
def ProposerSlashingsForSlotRange (env : Env) (_minSlot _maxSlot : Nat) : M (List ProposerSlashing) := fun st =>
  (env.slashingsResult, st)

/-- Modelled from the spec: the idempotent upsert write of a proposer slashing
through the domain write API, scoped to the ambient transaction. -/
def SetProposerSlashing (env : Env) (ps : ProposerSlashing) : M Unit := fun st =>
  match st.tx with
  | some t =>
      if env.setProposerSlashingOk ps then
        (Except.ok (), { st with tx := some { t with slashings := t.slashings ++ [ps] } })
      else
        (Except.error (GoError.base "failed to set proposer slashing"), st)
  | none => (Except.error ErrNoTransaction, st)

/-- The header built from the first five header fields of a slashing. -/
def header1Of (ps : ProposerSlashing) : BeaconBlockHeader :=
  { slot := ps.header1Slot, proposerIndex := ps.header1ProposerIndex,
    parentRoot := ps.header1ParentRoot, stateRoot := ps.header1StateRoot,
    bodyRoot := ps.header1BodyRoot }

/-- The header built from the second five header fields of a slashing. -/
def header2Of (ps : ProposerSlashing) : BeaconBlockHeader :=
  { slot := ps.header2Slot, proposerIndex := ps.header2ProposerIndex,
    parentRoot := ps.header2ParentRoot, stateRoot := ps.header2StateRoot,
    bodyRoot := ps.header2BodyRoot }

/-- The per-row backfill loop of `addProposerSlashingBlockRoots`: hash both
headers, store the roots on the row and write it back, failing the whole step
on any error. -/
def backfillProposerSlashings (env : Env) : List ProposerSlashing → M Unit
  | [] => pure ()
  | ps :: rest => fun st =>
      match env.hashTreeRoot (header1Of ps) with
      | Except.error e => (Except.error (GoError.wrap "failed to calculate proposer slashing block 1 root" e), st)
      | Except.ok r1 =>
          match env.hashTreeRoot (header2Of ps) with
          | Except.error e => (Except.error (GoError.wrap "failed to calculate proposer slashing block 2 root" e), st)
          | Except.ok r2 =>
              match SetProposerSlashing env { ps with block1Root := r1, block2Root := r2 } st with
              | (Except.ok _, st') => backfillProposerSlashings env rest st'
              | (Except.error e, st') => (Except.error (GoError.wrap "failed to update proposer slashing" e), st')

/-- `addProposerSlashingBlockRoots`: add the two root columns as nullable, read
all existing slashings, backfill each row's block roots, then tighten both
columns to NOT NULL. -/
def addProposerSlashingBlockRoots (env : Env) : M Unit := do
  requireTx
  exec env Stmt.addBlock1Root "failed to add f_block_1_root to proposer slashings table"
  exec env Stmt.addBlock2Root "failed to add f_block_2_root to proposer slashings table"
  let proposerSlashings ← withWrap "failed to obtain current proposer slashings"
    (ProposerSlashingsForSlotRange env 0 9223372036854775807)
  backfillProposerSlashings env proposerSlashings
  exec env Stmt.setNotNullBlock1Root
    "failed to add NOT NULL constraint for f_block_1_root to proposer slashings table"
  exec env Stmt.setNotNullBlock2Root
    "failed to add NOT NULL constraint for f_block_2_root to proposer slashings table"

/-- `createETH1Deposits`: create the `t_eth1_deposits` table and its five
indexes, all in conditional form. -/
def createETH1Deposits (env : Env) : M Unit := do
  requireTx
  exec env Stmt.createETH1DepositsTable "failed to create Ethereum 1 deposits table"
  exec env Stmt.createETH1DepositsIndex1 "failed to create Ethereum 1 deposits index 1"
  exec env Stmt.createETH1DepositsIndex2 "failed to create Ethereum 1 deposits index 2"
  exec env Stmt.createETH1DepositsIndex3 "failed to create Ethereum 1 deposits index 3"
  exec env Stmt.createETH1DepositsIndex4 "failed to create Ethereum 1 deposits index 4"
  exec env Stmt.createETH1DepositsIndex5 "failed to create Ethereum 1 deposits index 5"

/-- `addAttestationAggregationIndices`: probe whether the column is already
present (earlier deployments added it manually) and skip the DDL if so. -/
def addAttestationAggregationIndices (env : Env) : M Unit := do
  requireTx
  let alreadyPresent ← withWrap "failed to check if f_aggregation_indices is present in t_attestations"
    (columnExists env "t_attestations" "f_aggregation_indices")
  if alreadyPresent then
    pure ()
  else
    exec env Stmt.addAggregationIndices "failed to add f_aggregation_indices to attestations table"

/-- A registered migration: its step functions in declared order and its
refetch flag. -/
structure UpgradeDef where
  requiresRefetch : Bool
  funcs : List (Env → M Unit)

/-- The target schema version (`currentVersion = uint64(1)`). -/
def currentVersion : Nat := 1

/-- The step functions of the version-1 migration, in declared order. -/
def upgradeFuncsV1 : List (Env → M Unit) :=
  [validatorsEpochNull, createDeposits, createChainSpec, createGenesis,
   addProposerSlashingBlockRoots, createETH1Deposits, addAttestationAggregationIndices]

/-- The static migration registry (`upgrades`): version 1 requires a refetch
and carries the seven step functions. -/
def upgrades : Nat → Option UpgradeDef := fun v =>
  if v = 1 then some { requiresRefetch := true, funcs := upgradeFuncsV1 } else none

/-- The inclusive version range `lo..hi` iterated by the upgrade loop
(empty when `hi < lo`). -/
def versionRange (lo hi : Nat) : List Nat :=
  (List.range (hi + 1 - lo)).map (fun k => lo + k)

/-- Run a migration's step functions in declared order, stopping at the first
error. -/
def runUpgradeFuncs (env : Env) : List (Env → M Unit) → M Unit
  | [] => pure ()
  | f :: rest => do
      f env
      runUpgradeFuncs env rest

/-- The body of the upgrade loop over a list of version numbers: versions with
no registered migration are skipped, a registered migration's steps run in
order and its refetch flag is OR-ed into the accumulator afterwards. -/
def runMigrationList (env : Env) (acc : Bool) : List Nat → M Bool
  | [] => pure acc
  | i :: rest =>
      match upgrades i with
      | some u => do
          runUpgradeFuncs env u.funcs
          runMigrationList env (acc || u.requiresRefetch) rest
      | none => runMigrationList env acc rest

/-- The upgrade loop of `Upgrade` as written in the source:
`for i := version; i <= currentVersion; i++`. -/
def runMigrations (env : Env) (v : Nat) : M Bool :=
  runMigrationList env false (versionRange v currentVersion)

/-- The upgrade loop as the spec states it: iterate from `v + 1` to the target
inclusive.  This definition follows the spec's words and exists only to be
compared with `runMigrations`. -/
def runPendingMigrationsSpec (env : Env) (v : Nat) : M Bool :=
  runMigrationList env false (versionRange (v + 1) currentVersion)

/-- `Upgrade`: read the version, return early when already current, otherwise
run all pending migrations, persist the target version and commit — cancelling
the scope on every error path past `BeginTx`. -/
def Upgrade (env : Env) : M Bool := fun st =>
  match version env st with
  | (Except.error e, st1) => (Except.error (GoError.wrap "failed to obtain version" e), st1)
  | (Except.ok v, st1) =>
      if v = currentVersion then
        (Except.ok false, st1)
      else
        match BeginTx env st1 with
        | (Except.error e, st2) => (Except.error (GoError.wrap "failed to begin upgrade transaction" e), st2)
        | (Except.ok _, st2) =>
            match runMigrations env v st2 with
            | (Except.error e, st3) => (Except.error (GoError.wrap "failed to upgrade" e), cancelTx st3)
            | (Except.ok requiresRefetch, st3) =>
                match setVersion env currentVersion st3 with
                | (Except.error e, st4) => (Except.error (GoError.wrap "failed to set latest schema version" e), cancelTx st4)
                | (Except.ok _, st4) =>
                    match CommitTx env st4 with
                    | (Except.error e, st5) => (Except.error (GoError.wrap "failed to commit upgrade transaction" e), cancelTx st5)
                    | (Except.ok _, st5) => (Except.ok requiresRefetch, st5)

instance {ε α : Type} [DecidableEq ε] [DecidableEq α] : DecidableEq (Except ε α) := fun a b =>
  match a, b with
  | Except.ok x, Except.ok y =>
      if h : x = y then Decidable.isTrue (congrArg Except.ok h)
      else Decidable.isFalse (fun hh => h (Except.ok.inj hh))
  | Except.ok _, Except.error _ => Decidable.isFalse (fun hh => Except.noConfusion hh)
  | Except.error _, Except.ok _ => Decidable.isFalse (fun hh => Except.noConfusion hh)
  | Except.error x, Except.error y =>
      if h : x = y then Decidable.isTrue (congrArg Except.error h)
      else Decidable.isFalse (fun hh => h (Except.error.inj hh))

/-- An empty store: no metadata, no columns, no statements, no rows. -/
def store0 : Store := { meta := [], cols := [], applied := [], slashings := [] }

/-- A fresh database state: empty store, no ambient transaction, no events. -/
def db0 : DBState := { committed := store0, tx := none, events := [] }

/-- An environment in which every collaborator succeeds: the range read
returns no rows and the empty-result scan reports `false` without error. -/
def envAllOk : Env :=
  { metadataOk := true, setMetadataOk := true, beginOk := true, commitOk := true,
    execOk := fun _ => true, queryOk := true, scanEmpty := Except.ok false,
    slashingsResult := Except.ok [], hashTreeRoot := fun _ => Except.ok 0,
    setProposerSlashingOk := fun _ => true }

/-- An environment in which the first SQL statement of the first migration
step fails and everything else succeeds. -/
def envExecFail : Env :=
  { envAllOk with execOk := fun s => match s with
      | Stmt.dropNotNullActivationEligibilityEpoch => false
      | _ => true }

/-- An environment in which only the transaction commit fails. -/
def envCommitFail : Env := { envAllOk with commitOk := false }

/-- An environment in which the metadata read fails. -/
def envMetaFail : Env := { envAllOk with metadataOk := false }

/-- A database state already at schema version 1. -/
def dbV1 : DBState :=
  { committed := { store0 with meta := [("schema", Blob.versionDoc 1)] }, tx := none, events := [] }

/-- A database state whose persisted version is above the target. -/
def dbV5 : DBState :=
  { committed := { store0 with meta := [("schema", Blob.versionDoc 5)] }, tx := none, events := [] }

/-- A database state whose stored version document is malformed. -/
def dbMalformed : DBState :=
  { committed := { store0 with meta := [("schema", Blob.malformed)] }, tx := none, events := [] }

/-- A store already carrying the attestation aggregation-indices column. -/
def attestationsCols : Store :=
  { store0 with cols := [("t_attestations", "f_aggregation_indices")] }

/-- A state with an ambient transaction whose pending store already has the
attestation aggregation-indices column. -/
def dbAmbientCol : DBState := { committed := store0, tx := some attestationsCols, events := [] }

/-- Final state of a fully successful upgrade run from a fresh database. -/
def stUp : DBState := (Upgrade envAllOk db0).2

/-- Final state of a run whose first migration statement fails. -/
def stExecFail : DBState := (Upgrade envExecFail db0).2

/-- Final state of a run whose commit fails after all steps succeeded. -/
def stCommitFail : DBState := (Upgrade envCommitFail db0).2

/-- The blob effectively readable under the "schema" key. -/
def readBlob (st : DBState) : Blob :=
  ((st.tx.getD st.committed).meta.lookup "schema").getD Blob.empty

/-- The migrations a run starting from persisted version `v` applies: none on
the fast path, otherwise every registered migration in the iterated range. -/
def appliedMigrations (v : Nat) : List UpgradeDef :=
  if v = currentVersion then [] else (versionRange v currentVersion).filterMap upgrades

/-- The OR of the `requiresRefetch` flags of the migrations applied by a run
starting from persisted version `v`. -/
def aggregateRequiresRefetch (v : Nat) : Bool :=
  (appliedMigrations v).foldl (fun acc u => acc || u.requiresRefetch) false

theorem bind_apply {α β : Type} (x : M α) (f : α → M β) (st : DBState) :
    (x >>= f) st = match x st with
      | (Except.ok a, st') => f a st'
      | (Except.error e, st') => (Except.error e, st') := rfl

theorem pure_apply {α : Type} (a : α) (st : DBState) : (pure a : M α) st = (Except.ok a, st) := rfl

/-- `version` never changes the state: it is a pure read. -/
theorem version_state (env : Env) (st : DBState) : (version env st).2 = st := by
  by_cases h : env.metadataOk = true
  · rcases hb : ((st.tx.getD st.committed).meta.lookup "schema").getD Blob.empty with _ | n | _ <;>
      simp [version, bind_apply, pure_apply, withWrap, throwM, Metadata, h, hb]
  · simp [version, bind_apply, withWrap, Metadata, h]

/-- What a successful `version` read says about the stored blob. -/
theorem version_ok_blob (env : Env) (st : DBState) (n : Nat)
    (h : (version env st).1 = Except.ok n) :
    env.metadataOk = true ∧ (readBlob st = Blob.empty ∧ n = 0 ∨ readBlob st = Blob.versionDoc n) := by
  by_cases hm : env.metadataOk = true
  · refine ⟨hm, ?_⟩
    rcases hb : ((st.tx.getD st.committed).meta.lookup "schema").getD Blob.empty with _ | k | _ <;>
      simp [version, bind_apply, pure_apply, withWrap, throwM, Metadata, hm, hb, readBlob] at h ⊢ <;>
      simp [hb, h]
  · simp [version, bind_apply, withWrap, Metadata, hm] at h

/-- Looking up the key just set by `metaSet` yields the new value. -/
theorem metaSet_lookup (s : Store) (key : String) (value : Blob) :
    (metaSet s key value).meta.lookup key = some value := by
  simp [metaSet, List.lookup]

/-- An iterated range with its high end below its low end is empty. -/
theorem versionRange_empty_of_lt (lo hi : Nat) (h : hi < lo) : versionRange lo hi = [] := by
  simp [versionRange, Nat.sub_eq_zero_of_le h]

/-- A computation that never changes the committed store. -/
def preservesCommitted {α : Type} (x : M α) : Prop :=
  ∀ st, (x st).2.committed = st.committed

theorem pc_bind {α β : Type} {x : M α} {f : α → M β}
    (hx : preservesCommitted x) (hf : ∀ a, preservesCommitted (f a)) :
    preservesCommitted (x >>= f) := by
  intro st
  rw [bind_apply]
  rcases hxs : x st with ⟨r, st'⟩
  have h1 : st'.committed = st.committed := by
    have := hx st; rw [hxs] at this; exact this
  cases r with
  | ok a => simpa [h1] using (hf a st').trans h1
  | error e => simpa using h1

theorem pc_pure {α : Type} (a : α) : preservesCommitted (pure a : M α) := by
  intro st; rfl

theorem pc_requireTx : preservesCommitted requireTx := by
  intro st; cases h : st.tx <;> simp [requireTx, h]

theorem pc_throwM {α : Type} (e : GoError) : preservesCommitted (throwM e : M α) := by
  intro st; rfl

theorem pc_withWrap {α : Type} (msg : String) {x : M α} (hx : preservesCommitted x) :
    preservesCommitted (withWrap msg x) := by
  intro st
  rcases hxs : x st with ⟨r, st'⟩
  have h1 : st'.committed = st.committed := by
    have := hx st; rw [hxs] at this; exact this
  cases r <;> simp [withWrap, hxs, h1]

theorem pc_exec (env : Env) (sql : Stmt) (msg : String) : preservesCommitted (exec env sql msg) := by
  intro st
  cases h : st.tx with
  | none => simp [exec, h]
  | some t =>
      simp only [exec, h]
      split <;> simp

theorem pc_BeginTx (env : Env) : preservesCommitted (BeginTx env) := by
  intro st
  by_cases h : env.beginOk = true <;> simp [BeginTx, h]

theorem pc_Metadata (env : Env) (key : String) : preservesCommitted (Metadata env key) := by
  intro st
  by_cases h : env.metadataOk = true <;> simp [Metadata, h]

theorem pc_SetProposerSlashing (env : Env) (ps : ProposerSlashing) :
    preservesCommitted (SetProposerSlashing env ps) := by
  intro st
  cases h : st.tx <;> simp [SetProposerSlashing, h]
  split <;> simp

theorem pc_ProposerSlashingsForSlotRange (env : Env) (lo hi : Nat) :
    preservesCommitted (ProposerSlashingsForSlotRange env lo hi) := by
  intro st; rfl

theorem pc_columnExists (env : Env) (tableName columnName : String) :
    preservesCommitted (columnExists env tableName columnName) := by
  intro st
  cases h : st.tx with
  | some t => simp [columnExists, h]
  | none =>
      by_cases hb : env.beginOk = true <;>
        simp [columnExists, h, BeginTx, hb, cancelTx]

theorem pc_SetMetadata_some (env : Env) (key : String) (value : Blob) (st : DBState)
    (h : st.tx.isSome) : ((SetMetadata env key value) st).2.committed = st.committed := by
  rcases ht : st.tx with _ | t
  · rw [ht] at h; simp at h
  · by_cases hsm : env.setMetadataOk = true <;> simp [SetMetadata, ht, hsm]

theorem pc_setVersion (env : Env) (v : Nat) : preservesCommitted (setVersion env v) := by
  intro st
  cases h : st.tx with
  | none => simp [setVersion, bind_apply, requireTx, h]
  | some t =>
      by_cases hsm : env.setMetadataOk = true <;>
        simp [setVersion, bind_apply, requireTx, SetMetadata, h, hsm]

theorem pc_backfill (env : Env) (l : List ProposerSlashing) :
    preservesCommitted (backfillProposerSlashings env l) := by
  induction l with
  | nil => exact pc_pure ()
  | cons ps rest ih =>
      intro st
      simp only [backfillProposerSlashings]
      cases env.hashTreeRoot (header1Of ps) with
      | error e => rfl
      | ok r1 =>
          cases env.hashTreeRoot (header2Of ps) with
          | error e => rfl
          | ok r2 =>
              rcases hset : SetProposerSlashing env
                  { ps with block1Root := r1, block2Root := r2 } st with ⟨r, st'⟩
              have h1 : st'.committed = st.committed := by
                have := pc_SetProposerSlashing env
                  { ps with block1Root := r1, block2Root := r2 } st
                rw [hset] at this; exact this
              cases r with
              | ok a => simp [hset]; exact (ih st').trans h1
              | error e => simp [hset, h1]

theorem pc_step (f : Env → M Unit) (hf : f ∈ upgradeFuncsV1) (env : Env) :
    preservesCommitted (f env) := by
  have hv : ∀ g ∈ upgradeFuncsV1, ∀ e : Env, preservesCommitted (g e) := by
    intro g hg e
    simp [upgradeFuncsV1] at hg
    rcases hg with h | h | h | h | h | h | h <;> subst h
    · exact pc_bind pc_requireTx (fun _ => pc_bind (pc_exec _ _ _) (fun _ =>
        pc_bind (pc_exec _ _ _) (fun _ => pc_bind (pc_exec _ _ _) (fun _ =>
        pc_bind (pc_exec _ _ _) (fun _ => pc_bind (pc_exec _ _ _) (fun _ =>
        pc_bind (pc_exec _ _ _) (fun _ => pc_bind (pc_exec _ _ _) (fun _ =>
        pc_exec _ _ _))))))))
    · exact pc_bind pc_requireTx (fun _ => pc_bind (pc_exec _ _ _) (fun _ => pc_exec _ _ _))
    · exact pc_bind pc_requireTx (fun _ => pc_exec _ _ _)
    · exact pc_bind pc_requireTx (fun _ => pc_exec _ _ _)
    · exact pc_bind pc_requireTx (fun _ => pc_bind (pc_exec _ _ _) (fun _ =>
        pc_bind (pc_exec _ _ _) (fun _ => pc_bind
          (pc_withWrap _ (pc_ProposerSlashingsForSlotRange _ _ _)) (fun l =>
        pc_bind (pc_backfill _ _) (fun _ =>
        pc_bind (pc_exec _ _ _) (fun _ => pc_exec _ _ _))))))
    · exact pc_bind pc_requireTx (fun _ => pc_bind (pc_exec _ _ _) (fun _ =>
        pc_bind (pc_exec _ _ _) (fun _ => pc_bind (pc_exec _ _ _) (fun _ =>
        pc_bind (pc_exec _ _ _) (fun _ => pc_bind (pc_exec _ _ _) (fun _ =>
        pc_exec _ _ _))))))
    · exact pc_bind pc_requireTx (fun _ => pc_bind
        (pc_withWrap _ (pc_columnExists _ _ _)) (fun b => by
          cases b <;> simp <;> first
            | exact pc_exec _ _ _
            | exact pc_pure ()))
  exact hv f hf env

theorem pc_runUpgradeFuncs (env : Env) (l : List (Env → M Unit))
    (hl : ∀ f ∈ l, f ∈ upgradeFuncsV1) : preservesCommitted (runUpgradeFuncs env l) := by
  induction l with
  | nil => exact pc_pure ()
  | cons f rest ih =>
      simp only [runUpgradeFuncs]
      exact pc_bind (pc_step f (hl f (by simp)) env)
        (fun _ => ih (fun g hg => hl g (by simp [hg])))

theorem pc_runMigrationList (env : Env) (l : List Nat) (acc : Bool) :
    preservesCommitted (runMigrationList env acc l) := by
  induction l generalizing acc with
  | nil => exact pc_pure acc
  | cons i rest ih =>
      simp only [runMigrationList]
      rcases h : upgrades i with _ | u
      · exact ih acc
      · refine pc_bind (pc_runUpgradeFuncs env u.funcs ?_) (fun _ => ih _)
        intro f hf
        have : u.funcs = upgradeFuncsV1 := by
          simp [upgrades] at h
          rcases h with ⟨h1, h2⟩
          rw [← h2]
        rw [this] at hf; exact hf

theorem pc_runMigrations (env : Env) (v : Nat) : preservesCommitted (runMigrations env v) :=
  pc_runMigrationList env (versionRange v currentVersion) false

/-- A failing `BeginTx` leaves the state unchanged. -/
theorem BeginTx_error_state (env : Env) (st : DBState) (e : GoError) (st' : DBState)
    (h : BeginTx env st = (Except.error e, st')) : st' = st := by
  by_cases hb : env.beginOk = true <;> simp [BeginTx, hb] at h <;> simp [h]

/-- A successful `BeginTx` opens a scope over the committed store. -/
theorem BeginTx_ok_state (env : Env) (st : DBState) (u : Unit) (st' : DBState)
    (h : BeginTx env st = (Except.ok u, st')) :
    st' = { st with tx := some st.committed, events := st.events ++ [Event.beganTx] } := by
  by_cases hb : env.beginOk = true <;> simp [BeginTx, hb] at h <;> simp [h]

/-- A failing `CommitTx` leaves the state unchanged. -/
theorem CommitTx_error_state (env : Env) (st : DBState) (e : GoError) (st' : DBState)
    (h : CommitTx env st = (Except.error e, st')) : st' = st := by
  cases ht : st.tx with
  | none => simp [CommitTx, ht] at h; simp [h]
  | some t =>
      by_cases hc : env.commitOk = true <;> simp [CommitTx, ht, hc] at h <;> simp [h]

/-- A successful `CommitTx` promotes the pending store and closes the scope. -/
theorem CommitTx_ok_state (env : Env) (st : DBState) (u : Unit) (st' : DBState)
    (h : CommitTx env st = (Except.ok u, st')) :
    env.commitOk = true ∧ ∃ t, st.tx = some t ∧
      st' = { committed := t, tx := none, events := st.events ++ [Event.committedTx] } := by
  cases ht : st.tx with
  | none => simp [CommitTx, ht] at h
  | some t =>
      by_cases hc : env.commitOk = true <;> simp [CommitTx, ht, hc] at h
      exact ⟨hc, by simp [h]⟩

/-- A successful `setVersion` writes the version document into the pending
store of the ambient transaction. -/
theorem setVersion_ok_state (env : Env) (v : Nat) (st : DBState) (u : Unit) (st' : DBState)
    (h : setVersion env v st = (Except.ok u, st')) :
    ∃ t, st.tx = some t ∧
      st' = { st with tx := some (metaSet t "schema" (Blob.versionDoc v)) } := by
  cases ht : st.tx with
  | none => simp [setVersion, bind_apply, requireTx, ht] at h
  | some t =>
      by_cases hs : env.setMetadataOk = true <;>
        simp [setVersion, bind_apply, requireTx, SetMetadata, ht, hs] at h
      exact ⟨t, rfl, by simp [h]⟩

/-- A failing `setVersion` leaves the state unchanged. -/
theorem setVersion_error_state (env : Env) (v : Nat) (st : DBState) (e : GoError) (st' : DBState)
    (h : setVersion env v st = (Except.error e, st')) : st' = st := by
  cases ht : st.tx with
  | none => simp [setVersion, bind_apply, requireTx, ht] at h; simp [h]
  | some t =>
      by_cases hs : env.setMetadataOk = true <;>
        simp [setVersion, bind_apply, requireTx, SetMetadata, ht, hs] at h
      simp [h]

/-- Any error exit of `Upgrade` from a state with no ambient transaction
leaves no open scope and the committed store untouched. -/
theorem upgrade_error_state (env : Env) (st : DBState) (e : GoError) (st' : DBState)
    (htx : st.tx = none) (h : Upgrade env st = (Except.error e, st')) :
    st'.tx = none ∧ st'.committed = st.committed := by
  have hvs := version_state env st
  rw [Upgrade] at h
  rcases hv : version env st with ⟨rv, st1⟩
  have hst1 : st1 = st := by rw [hv] at hvs; exact hvs
  rw [hv] at h
  cases rv with
  | error e' =>
      simp at h
      rw [← h.2, hst1]
      exact ⟨htx, rfl⟩
  | ok v =>
      by_cases hvc : v = currentVersion
      · simp [hvc] at h
      · simp only [hvc, if_false, ite_false] at h
        rcases hbx : BeginTx env st1 with ⟨rb, st2⟩
        rw [hbx] at h
        cases rb with
        | error eb =>
            simp at h
            have := BeginTx_error_state env st1 eb st2 hbx
            rw [← h.2, this, hst1]
            exact ⟨htx, rfl⟩
        | ok ub =>
            have hst2 : st2.committed = st.committed := by
              have := pc_BeginTx env st1; rw [hbx] at this
              simp at this; rw [this, hst1]
            simp only [] at h
            rcases hm : runMigrations env v st2 with ⟨rm, st3⟩
            rw [hm] at h
            have hst3 : st3.committed = st.committed := by
              have := pc_runMigrations env v st2; rw [hm] at this
              simp at this; rw [this]; exact hst2
            cases rm with
            | error em =>
                simp at h
                rw [← h.2]
                exact ⟨rfl, by simp [cancelTx, hst3]⟩
            | ok flag =>
                simp only [] at h
                rcases hsv : setVersion env currentVersion st3 with ⟨rs, st4⟩
                rw [hsv] at h
                have hst4 : st4.committed = st.committed := by
                  have := pc_setVersion env currentVersion st3; rw [hsv] at this
                  simp at this; rw [this]; exact hst3
                cases rs with
                | error es =>
                    simp at h
                    rw [← h.2]
                    exact ⟨rfl, by simp [cancelTx, hst4]⟩
                | ok us =>
                    simp only [] at h
                    rcases hc : CommitTx env st4 with ⟨rc, st5⟩
                    rw [hc] at h
                    cases rc with
                    | error ec =>
                        simp at h
                        have := CommitTx_error_state env st4 ec st5 hc
                        rw [← h.2]
                        refine ⟨rfl, by simp [cancelTx, this, hst4]⟩
                    | ok uc => simp at h

/-- When the version read yields the target version, `Upgrade` returns
`(false, nil)` with the state untouched. -/
theorem upgrade_fast_path (env : Env) (st : DBState)
    (h : (version env st).1 = Except.ok currentVersion) :
    Upgrade env st = (Except.ok false, st) := by
  have hvs := version_state env st
  rw [Upgrade]
  rcases hv : version env st with ⟨rv, st1⟩
  have hst1 : st1 = st := by rw [hv] at hvs; exact hvs
  rw [hv] at h
  simp at h
  rw [h]
  simp [hst1]

/-- A successful `Upgrade` from a state with no ambient transaction leaves no
open scope and leaves `currentVersion` readable under the "schema" key. -/
theorem upgrade_ok_state (env : Env) (st : DBState) (b : Bool) (st' : DBState)
    (htx : st.tx = none) (h : Upgrade env st = (Except.ok b, st')) :
    st'.tx = none ∧ readBlob st' = Blob.versionDoc currentVersion := by
  have hvs := version_state env st
  rw [Upgrade] at h
  rcases hv : version env st with ⟨rv, st1⟩
  have hst1 : st1 = st := by rw [hv] at hvs; exact hvs
  rw [hv] at h
  cases rv with
  | error e' => simp at h
  | ok v =>
      by_cases hvc : v = currentVersion
      · -- fast path: the read itself certifies the stored version document
        rw [hvc] at hv
        simp [hvc] at h
        have hb := version_ok_blob env st currentVersion (by rw [hv])
        rcases hb.2 with ⟨hbe, hv0⟩ | hbd
        · simp [currentVersion] at hv0
        · rw [← h.2, hst1]
          exact ⟨htx, hbd⟩
      · simp only [hvc, if_false, ite_false] at h
        rcases hbx : BeginTx env st1 with ⟨rb, st2⟩
        rw [hbx] at h
        cases rb with
        | error eb => simp at h
        | ok ub =>
            simp only [] at h
            rcases hm : runMigrations env v st2 with ⟨rm, st3⟩
            rw [hm] at h
            cases rm with
            | error em => simp at h
            | ok flag =>
                simp only [] at h
                rcases hsv : setVersion env currentVersion st3 with ⟨rs, st4⟩
                rw [hsv] at h
                cases rs with
                | error es => simp at h
                | ok us =>
                    simp only [] at h
                    rcases hc : CommitTx env st4 with ⟨rc, st5⟩
                    rw [hc] at h
                    cases rc with
                    | error ec => simp at h
                    | ok uc =>
                        simp at h
                        obtain ⟨t4, ht4, hst4⟩ := setVersion_ok_state env currentVersion st3 us st4 hsv
                        obtain ⟨hcok, t5, ht5, hst5⟩ := CommitTx_ok_state env st4 uc st5 hc
                        rw [hst4] at ht5
                        simp at ht5
                        rw [← h.2, hst5, ← ht5]
                        refine ⟨rfl, ?_⟩
                        simp [readBlob, metaSet_lookup]

/-- The boolean a successful migration loop returns is the fold of the
registered migrations' refetch flags over the iterated versions. -/
theorem runMigrationList_ok_flag (env : Env) (l : List Nat) (acc : Bool) (st : DBState)
    (b : Bool) (st' : DBState) (h : runMigrationList env acc l st = (Except.ok b, st')) :
    b = (l.filterMap upgrades).foldl (fun a u => a || u.requiresRefetch) acc := by
  induction l generalizing acc st with
  | nil =>
      simp [runMigrationList, pure_apply] at h
      simp [h.1]
  | cons i rest ih =>
      simp only [runMigrationList] at h
      rcases hu : upgrades i with _ | u <;> rw [hu] at h <;> simp only [] at h
      · simpa [List.filterMap_cons, hu] using ih acc st h
      · rw [bind_apply] at h
        rcases hr : runUpgradeFuncs env u.funcs st with ⟨rr, st''⟩
        rw [hr] at h
        cases rr with
        | error e => simp at h
        | ok a => simpa [List.filterMap_cons, hu] using ih (acc || u.requiresRefetch) st'' h

/-- C1: for every initial persisted version strictly below the target,
the migration loop of `Upgrade` behaves exactly as the spec's iteration from
`v+1` to the target inclusive: each registered migration in that range runs,
with its steps in declared order, and the migration registered for `v` itself
is not run (no migration is registered below the target). -/
theorem upgrade_loop_runs_pending_versions_in_order (env : Env) (v : Nat) (st : DBState)
    (h : v < currentVersion) :
    runMigrations env v st = runPendingMigrationsSpec env v st := by
  have hv : v = 0 := Nat.lt_one_iff.mp h
  subst hv
  rfl

/-- C2: a run in which a migration step fails exits through the
"failed to upgrade" error path: the returned error wraps the step's error, the
transaction scope is cancelled before returning, and the committed store — in
particular the persisted schema version — is exactly its pre-run value. -/
theorem upgrade_step_failure_rolls_back (env : Env) (st : DBState) (e : GoError) (st' : DBState)
    (htx : st.tx = none)
    (h : Upgrade env st = (Except.error (GoError.wrap "failed to upgrade" e), st')) :
    st'.tx = none ∧ st'.committed = st.committed ∧
      ∃ pre, st'.events = pre ++ [Event.cancelledTx] := by
  have hvs := version_state env st
  rw [Upgrade] at h
  rcases hv : version env st with ⟨rv, st1⟩
  have hst1 : st1 = st := by rw [hv] at hvs; exact hvs
  rw [hv] at h
  cases rv with
  | error e' => simp [Prod.ext_iff] at h
  | ok v =>
      by_cases hvc : v = currentVersion
      · simp [hvc] at h
      · simp only [hvc, if_false, ite_false] at h
        rcases hbx : BeginTx env st1 with ⟨rb, st2⟩
        rw [hbx] at h
        cases rb with
        | error eb => simp [Prod.ext_iff] at h
        | ok ub =>
            have hst2 : st2.committed = st.committed := by
              have := pc_BeginTx env st1; rw [hbx] at this
              simp at this; rw [this, hst1]
            simp only [] at h
            rcases hm : runMigrations env v st2 with ⟨rm, st3⟩
            rw [hm] at h
            have hst3 : st3.committed = st.committed := by
              have := pc_runMigrations env v st2; rw [hm] at this
              simp at this; rw [this]; exact hst2
            cases rm with
            | error em =>
                simp at h
                rw [← h.2]
                exact ⟨rfl, by simp [cancelTx, hst3], st3.events, rfl⟩
            | ok flag =>
                simp only [] at h
                rcases hsv : setVersion env currentVersion st3 with ⟨rs, st4⟩
                rw [hsv] at h
                have hst4 : st4.committed = st.committed := by
                  have := pc_setVersion env currentVersion st3; rw [hsv] at this
                  simp at this; rw [this]; exact hst3
                cases rs with
                | error es => simp at h
                | ok us =>
                    simp only [] at h
                    rcases hc : CommitTx env st4 with ⟨rc, st5⟩
                    rw [hc] at h
                    cases rc with
                    | error ec => simp at h
                    | ok uc => simp at h

/-- C6: when the persisted version read at the start is strictly greater than
the target, `Upgrade` opens a transaction, runs no migration step, overwrites
the persisted version downward to the target, commits, and returns
`(false, nil)`. -/
theorem upgrade_downgrades_version_above_target (env : Env) (st : DBState) (v : Nat)
    (htx : st.tx = none) (hv : (version env st).1 = Except.ok v) (hgt : currentVersion < v)
    (hbegin : env.beginOk = true) (hset : env.setMetadataOk = true)
    (hcommit : env.commitOk = true) :
    Upgrade env st = (Except.ok false,
      { committed := metaSet st.committed "schema" (Blob.versionDoc currentVersion),
        tx := none,
        events := (st.events ++ [Event.beganTx]) ++ [Event.committedTx] }) := by
  have hvs := version_state env st
  rw [Upgrade]
  rcases hvv : version env st with ⟨rv, st1⟩
  have hst1 : st1 = st := by rw [hvv] at hvs; exact hvs
  rw [hvv] at hv
  simp at hv
  subst hv
  have hne : ¬v = currentVersion := by omega
  have hrange : versionRange v currentVersion = [] := versionRange_empty_of_lt v currentVersion hgt
  simp [hne, BeginTx, hbegin, runMigrations, hrange, runMigrationList, pure_apply,
    setVersion, bind_apply, requireTx, SetMetadata, hset, CommitTx, hcommit, hst1, htx]

/-- C7: reading the version yields 0 when no metadata is stored under the
"schema" key; a metadata read failure or an unmarshallable version document
makes `Upgrade` fail with the state — hence without a transaction or any
schema change — untouched. -/
theorem version_read_semantics_and_failures :
    (∀ env st, env.metadataOk = true → (st.tx.getD st.committed).meta.lookup "schema" = none →
      version env st = (Except.ok 0, st)) ∧
    (∀ env st, env.metadataOk = false →
      Upgrade env st = (Except.error (GoError.wrap "failed to obtain version"
        (GoError.wrap "failed to obtain schema metadata"
          (GoError.base "failed to read metadata"))), st)) ∧
    (∀ env st, env.metadataOk = true →
      (st.tx.getD st.committed).meta.lookup "schema" = some Blob.malformed →
      Upgrade env st = (Except.error (GoError.wrap "failed to obtain version"
        (GoError.wrap "failed to unmarshal metadata JSON" (GoError.base "invalid JSON"))), st)) := by
  refine ⟨?_, ?_, ?_⟩
  · intro env st hm hl
    simp [version, bind_apply, pure_apply, withWrap, Metadata, hm, hl]
  · intro env st hm
    simp [Upgrade, version, bind_apply, withWrap, Metadata, hm]
  · intro env st hm hl
    simp [Upgrade, version, bind_apply, pure_apply, withWrap, throwM, Metadata, hm, hl]

/-- C8: every migration step function, and `setVersion`, invoked with no
ambient transaction in the context returns the distinct `ErrNoTransaction`
sentinel with the state untouched — no database operation is performed. -/
theorem steps_require_transaction_sentinel (env : Env) (st : DBState) (htx : st.tx = none) :
    validatorsEpochNull env st = (Except.error ErrNoTransaction, st) ∧
    createDeposits env st = (Except.error ErrNoTransaction, st) ∧
    createChainSpec env st = (Except.error ErrNoTransaction, st) ∧
    createGenesis env st = (Except.error ErrNoTransaction, st) ∧
    addProposerSlashingBlockRoots env st = (Except.error ErrNoTransaction, st) ∧
    createETH1Deposits env st = (Except.error ErrNoTransaction, st) ∧
    addAttestationAggregationIndices env st = (Except.error ErrNoTransaction, st) ∧
    ∀ v : Nat, setVersion env v st = (Except.error ErrNoTransaction, st) := by
  refine ⟨?_, ?_, ?_, ?_, ?_, ?_, ?_, fun v => ?_⟩
  · simp [validatorsEpochNull, bind_apply, requireTx, htx]
  · simp [createDeposits, bind_apply, requireTx, htx]
  · simp [createChainSpec, bind_apply, requireTx, htx]
  · simp [createGenesis, bind_apply, requireTx, htx]
  · simp [addProposerSlashingBlockRoots, bind_apply, requireTx, htx]
  · simp [createETH1Deposits, bind_apply, requireTx, htx]
  · simp [addAttestationAggregationIndices, bind_apply, requireTx, htx]
  · simp [setVersion, bind_apply, requireTx, htx]

/-- C3: when the version read at the start equals the target version,
`Upgrade` returns `(false, nil)` with the state — hence without opening a
transaction or mutating anything — untouched; consequently a second `Upgrade`
right after a successful one is a no-op returning `(false, nil)` and leaving
the state unchanged. -/
theorem upgrade_already_current_noop_and_idempotent :
    (∀ env st, (version env st).1 = Except.ok currentVersion →
      Upgrade env st = (Except.ok false, st)) ∧
    (∀ env env' st b st', st.tx = none → env'.metadataOk = true →
      Upgrade env st = (Except.ok b, st') →
      Upgrade env' st' = (Except.ok false, st')) := by
  constructor
  · exact upgrade_fast_path
  · intro env env' st b st' htx hm h
    obtain ⟨htx', hblob⟩ := upgrade_ok_state env st b st' htx h
    apply upgrade_fast_path
    have hb : ((st'.tx.getD st'.committed).meta.lookup "schema").getD Blob.empty =
        Blob.versionDoc currentVersion := hblob
    simp [version, bind_apply, pure_apply, withWrap, Metadata, hm, hb]

/-- C4: the boolean returned by a successful `Upgrade` equals the OR of the
`requiresRefetch` flags of the migrations applied during that run (false when
no registered migration is applied). -/
theorem upgrade_returns_or_of_applied_refetch_flags (env : Env) (st : DBState) (v : Nat)
    (b : Bool) (st' : DBState)
    (hv : (version env st).1 = Except.ok v)
    (h : Upgrade env st = (Except.ok b, st')) :
    b = aggregateRequiresRefetch v := by
  rw [Upgrade] at h
  rcases hvv : version env st with ⟨rv, st1⟩
  rw [hvv] at h hv
  simp at hv
  subst hv
  by_cases hvc : v = currentVersion
  · simp [hvc] at h
    simp [aggregateRequiresRefetch, appliedMigrations, hvc, ← h.1]
  · simp only [hvc, if_false, ite_false] at h
    rcases hbx : BeginTx env st1 with ⟨rb, st2⟩
    rw [hbx] at h
    cases rb with
    | error eb => simp at h
    | ok ub =>
        simp only [] at h
        rcases hm : runMigrations env v st2 with ⟨rm, st3⟩
        rw [hm] at h
        cases rm with
        | error em => simp at h
        | ok flag =>
            simp only [] at h
            rcases hsv : setVersion env currentVersion st3 with ⟨rs, st4⟩
            rw [hsv] at h
            cases rs with
            | error es => simp at h
            | ok us =>
                simp only [] at h
                rcases hc : CommitTx env st4 with ⟨rc, st5⟩
                rw [hc] at h
                cases rc with
                | error ec => simp at h
                | ok uc =>
                    simp at h
                    have hflag := runMigrationList_ok_flag env
                      (versionRange v currentVersion) false st2 flag st3 hm
                    rw [← h.1, hflag]
                    simp [aggregateRequiresRefetch, appliedMigrations, hvc]

/-- C5: with a failing commit, `Upgrade` never reports success except through
the read-only fast path (which commits nothing), and the commit-failure error
exit cancels the scope and preserves the committed store. -/
theorem upgrade_commit_failure_not_success (env : Env) (st : DBState)
    (htx : st.tx = none) (hcommit : env.commitOk = false) :
    (∀ b st', Upgrade env st = (Except.ok b, st') → b = false ∧ st' = st) ∧
    (∀ e st', Upgrade env st =
        (Except.error (GoError.wrap "failed to commit upgrade transaction" e), st') →
      st'.tx = none ∧ st'.committed = st.committed ∧
        ∃ pre, st'.events = pre ++ [Event.cancelledTx]) := by
  have hvs := version_state env st
  constructor
  · intro b st' h
    rw [Upgrade] at h
    rcases hvv : version env st with ⟨rv, st1⟩
    have hst1 : st1 = st := by rw [hvv] at hvs; exact hvs
    rw [hvv] at h
    cases rv with
    | error e' => simp at h
    | ok v =>
        by_cases hvc : v = currentVersion
        · simp [hvc] at h
          exact ⟨h.1, by rw [← h.2]; exact hst1⟩
        · simp only [hvc, if_false, ite_false] at h
          rcases hbx : BeginTx env st1 with ⟨rb, st2⟩
          rw [hbx] at h
          cases rb with
          | error eb => simp at h
          | ok ub =>
              simp only [] at h
              rcases hm : runMigrations env v st2 with ⟨rm, st3⟩
              rw [hm] at h
              cases rm with
              | error em => simp at h
              | ok flag =>
                  simp only [] at h
                  rcases hsv : setVersion env currentVersion st3 with ⟨rs, st4⟩
                  rw [hsv] at h
                  cases rs with
                  | error es => simp at h
                  | ok us =>
                      simp only [] at h
                      rcases hc : CommitTx env st4 with ⟨rc, st5⟩
                      rw [hc] at h
                      cases rc with
                      | error ec => simp at h
                      | ok uc =>
                          obtain ⟨hcok, _⟩ := CommitTx_ok_state env st4 uc st5 hc
                          rw [hcommit] at hcok
                          exact absurd hcok (by decide)
  · intro e st' h
    rw [Upgrade] at h
    rcases hvv : version env st with ⟨rv, st1⟩
    have hst1 : st1 = st := by rw [hvv] at hvs; exact hvs
    rw [hvv] at h
    cases rv with
    | error e' => simp [Prod.ext_iff] at h
    | ok v =>
        by_cases hvc : v = currentVersion
        · simp [hvc] at h
        · simp only [hvc, if_false, ite_false] at h
          rcases hbx : BeginTx env st1 with ⟨rb, st2⟩
          rw [hbx] at h
          cases rb with
          | error eb => simp [Prod.ext_iff] at h
          | ok ub =>
              have hst2 : st2.committed = st.committed := by
                have := pc_BeginTx env st1; rw [hbx] at this
                simp at this; rw [this, hst1]
              simp only [] at h
              rcases hm : runMigrations env v st2 with ⟨rm, st3⟩
              rw [hm] at h
              cases rm with
              | error em => simp [Prod.ext_iff] at h
              | ok flag =>
                  simp only [] at h
                  rcases hsv : setVersion env currentVersion st3 with ⟨rs, st4⟩
                  rw [hsv] at h
                  have hst4 : st4.committed = st.committed := by
                    have h3 : st3.committed = st.committed := by
                      have := pc_runMigrations env v st2; rw [hm] at this
                      simp at this; rw [this]; exact hst2
                    have := pc_setVersion env currentVersion st3; rw [hsv] at this
                    simp at this; rw [this]; exact h3
                  cases rs with
                  | error es => simp [Prod.ext_iff] at h
                  | ok us =>
                      simp only [] at h
                      rcases hc : CommitTx env st4 with ⟨rc, st5⟩
                      rw [hc] at h
                      cases rc with
                      | error ec =>
                          simp at h
                          have h5 := CommitTx_error_state env st4 ec st5 hc
                          rw [← h.2]
                          exact ⟨rfl, by simp [cancelTx, h5, hst4], st5.events, rfl⟩
                      | ok uc => simp at h

/-- C9: the idempotency-probe step `addAttestationAggregationIndices` queries
the catalog first and, when `f_aggregation_indices` is already present on
`t_attestations`, returns success issuing no DDL: the only state change is the
recorded catalog query. -/
theorem add_attestation_indices_skips_when_column_present (env : Env) (st : DBState) (t : Store)
    (htx : st.tx = some t) (hq : env.queryOk = true)
    (hcol : t.cols.contains ("t_attestations", "f_aggregation_indices") = true) :
    addAttestationAggregationIndices env st =
      (Except.ok (), { st with events := st.events ++
        [Event.queried "t_attestations" "f_aggregation_indices"] }) := by
  have hmem : ("t_attestations", "f_aggregation_indices") ∈ t.cols := by
    simpa using hcol
  simp [addAttestationAggregationIndices, bind_apply, requireTx, htx, withWrap,
    columnExists, queryColumn, columnQueryRows, hq, hmem, pure_apply]

/-- C10: with no ambient transaction, `columnExists` begins a transaction of
its own (cancelling it before returning) and runs the catalog query against
the committed store rather than failing; the query itself can never produce
the `ErrNoTransaction` sentinel; with an ambient transaction, the query reuses
that transaction's pending store. -/
theorem column_exists_transaction_handling :
    (∀ env st tableName columnName, st.tx = none → env.beginOk = true →
      columnExists env tableName columnName st =
        (queryColumn env st.committed tableName columnName,
          { committed := st.committed, tx := none,
            events := ((st.events ++ [Event.beganTx]) ++
              [Event.queried tableName columnName]) ++ [Event.cancelledTx] })) ∧
    (∀ env view tableName columnName,
      queryColumn env view tableName columnName ≠ Except.error ErrNoTransaction) ∧
    (∀ env st t tableName columnName, st.tx = some t →
      columnExists env tableName columnName st =
        (queryColumn env t tableName columnName,
          { st with events := st.events ++ [Event.queried tableName columnName] })) := by
  refine ⟨?_, ?_, ?_⟩
  · intro env st tableName columnName htx hb
    simp [columnExists, htx, BeginTx, hb, cancelTx]
  · intro env view tableName columnName
    by_cases hq : env.queryOk = true
    · rcases hrows : columnQueryRows view tableName columnName with _ | ⟨f, rest⟩
      · rcases hs : env.scanEmpty with b | es <;>
          simp [queryColumn, hq, hrows, hs, ErrNoTransaction]
      · simp [queryColumn, hq, hrows]
    · simp [queryColumn, hq, ErrNoTransaction]
  · intro env st t tableName columnName htx
    simp [columnExists, htx]

theorem versionRange_zero_one : versionRange 0 1 = [0, 1] := rfl

/-- Concrete evaluation: a full upgrade run from a fresh database succeeds and
reports that a refetch is required. -/
theorem upgrade_run_all_ok : Upgrade envAllOk db0 = (Except.ok true, stUp) := by
  simp [stUp, Upgrade, version, Metadata, bind_apply, pure_apply, withWrap, throwM, BeginTx,
    CommitTx, cancelTx, runMigrations, runMigrationList, versionRange_zero_one, upgrades,
    currentVersion, runUpgradeFuncs, upgradeFuncsV1, validatorsEpochNull, createDeposits,
    createChainSpec, createGenesis, addProposerSlashingBlockRoots, createETH1Deposits,
    addAttestationAggregationIndices, requireTx, exec, applySql, db0, store0, envAllOk,
    ProposerSlashingsForSlotRange, backfillProposerSlashings, columnExists, queryColumn,
    columnQueryRows, setVersion, SetMetadata, metaSet]

/-- Concrete evaluation: a run whose first migration statement fails exits
through the step-failure path. -/
theorem upgrade_run_exec_fail : Upgrade envExecFail db0 =
    (Except.error (GoError.wrap "failed to upgrade"
      (GoError.wrap "failed to drop NOT NULL constraint on f_activation_eligibility_epoch"
        (GoError.base "exec failed"))), stExecFail) := by
  simp [stExecFail, Upgrade, version, Metadata, bind_apply, pure_apply, withWrap, throwM, BeginTx,
    CommitTx, cancelTx, runMigrations, runMigrationList, versionRange_zero_one, upgrades,
    currentVersion, runUpgradeFuncs, upgradeFuncsV1, validatorsEpochNull, createDeposits,
    createChainSpec, createGenesis, addProposerSlashingBlockRoots, createETH1Deposits,
    addAttestationAggregationIndices, requireTx, exec, applySql, db0, store0, envAllOk,
    envExecFail, ProposerSlashingsForSlotRange, backfillProposerSlashings, columnExists,
    queryColumn, columnQueryRows, setVersion, SetMetadata, metaSet]

/-- Concrete evaluation: a run in which every step succeeds but the commit
fails exits through the commit-failure path. -/
theorem upgrade_run_commit_fail : Upgrade envCommitFail db0 =
    (Except.error (GoError.wrap "failed to commit upgrade transaction"
      (GoError.base "failed to commit tx")), stCommitFail) := by
  simp [stCommitFail, Upgrade, version, Metadata, bind_apply, pure_apply, withWrap, throwM,
    BeginTx, CommitTx, cancelTx, runMigrations, runMigrationList, versionRange_zero_one, upgrades,
    currentVersion, runUpgradeFuncs, upgradeFuncsV1, validatorsEpochNull, createDeposits,
    createChainSpec, createGenesis, addProposerSlashingBlockRoots, createETH1Deposits,
    addAttestationAggregationIndices, requireTx, exec, applySql, db0, store0, envAllOk,
    envCommitFail, ProposerSlashingsForSlotRange, backfillProposerSlashings, columnExists,
    queryColumn, columnQueryRows, setVersion, SetMetadata, metaSet]

/-- Witness for C1 at the only initial version below the target. -/
theorem upgrade_loop_runs_pending_versions_in_order_witness :
    0 < currentVersion ∧
      runMigrations envAllOk 0 db0 = runPendingMigrationsSpec envAllOk 0 db0 :=
  ⟨by decide, upgrade_loop_runs_pending_versions_in_order envAllOk 0 db0 (by decide)⟩

/-- Witness for C2 on the run whose first statement fails. -/
theorem upgrade_step_failure_rolls_back_witness :
    stExecFail.tx = none ∧ stExecFail.committed = db0.committed ∧
      ∃ pre, stExecFail.events = pre ++ [Event.cancelledTx] :=
  upgrade_step_failure_rolls_back envExecFail db0
    (GoError.wrap "failed to drop NOT NULL constraint on f_activation_eligibility_epoch"
      (GoError.base "exec failed")) stExecFail rfl upgrade_run_exec_fail

/-- Witness for C3: the fast path on a current database and the no-op second
call after a successful run. -/
theorem upgrade_already_current_noop_and_idempotent_witness :
    Upgrade envAllOk dbV1 = (Except.ok false, dbV1) ∧
      Upgrade envAllOk stUp = (Except.ok false, stUp) :=
  ⟨upgrade_already_current_noop_and_idempotent.1 envAllOk dbV1 rfl,
   upgrade_already_current_noop_and_idempotent.2 envAllOk envAllOk db0 true stUp rfl rfl
     upgrade_run_all_ok⟩

/-- Witness for C4: the successful run from version 0 reports the aggregate
refetch flag of the applied migrations. -/
theorem upgrade_returns_or_of_applied_refetch_flags_witness :
    true = aggregateRequiresRefetch 0 :=
  upgrade_returns_or_of_applied_refetch_flags envAllOk db0 0 true stUp rfl upgrade_run_all_ok

/-- Witness for C5: with a failing commit the fast path still succeeds
read-only, and the commit-failure exit rolls back. -/
theorem upgrade_commit_failure_not_success_witness :
    (false = false ∧ dbV1 = dbV1) ∧
      (stCommitFail.tx = none ∧ stCommitFail.committed = db0.committed ∧
        ∃ pre, stCommitFail.events = pre ++ [Event.cancelledTx]) :=
  ⟨(upgrade_commit_failure_not_success envCommitFail dbV1 rfl rfl).1 false dbV1 rfl,
   (upgrade_commit_failure_not_success envCommitFail db0 rfl rfl).2
     (GoError.base "failed to commit tx") stCommitFail upgrade_run_commit_fail⟩

/-- Witness for C6 at persisted version 5 with target 1. -/
theorem upgrade_downgrades_version_above_target_witness :
    Upgrade envAllOk dbV5 = (Except.ok false,
      { committed := metaSet dbV5.committed "schema" (Blob.versionDoc currentVersion),
        tx := none, events := (dbV5.events ++ [Event.beganTx]) ++ [Event.committedTx] }) :=
  upgrade_downgrades_version_above_target envAllOk dbV5 5 rfl rfl (by decide) rfl rfl rfl

/-- Witness for C7 on a fresh database, a failing metadata store, and a
malformed version document. -/
theorem version_read_semantics_and_failures_witness :
    version envAllOk db0 = (Except.ok 0, db0) ∧
      Upgrade envMetaFail db0 = (Except.error (GoError.wrap "failed to obtain version"
        (GoError.wrap "failed to obtain schema metadata"
          (GoError.base "failed to read metadata"))), db0) ∧
      Upgrade envAllOk dbMalformed = (Except.error (GoError.wrap "failed to obtain version"
        (GoError.wrap "failed to unmarshal metadata JSON"
          (GoError.base "invalid JSON"))), dbMalformed) :=
  ⟨version_read_semantics_and_failures.1 envAllOk db0 rfl rfl,
   version_read_semantics_and_failures.2.1 envMetaFail db0 rfl,
   version_read_semantics_and_failures.2.2 envAllOk dbMalformed rfl rfl⟩

/-- Witness for C8 on a state with no ambient transaction. -/
theorem steps_require_transaction_sentinel_witness :
    validatorsEpochNull envAllOk db0 = (Except.error ErrNoTransaction, db0) ∧
    createDeposits envAllOk db0 = (Except.error ErrNoTransaction, db0) ∧
    createChainSpec envAllOk db0 = (Except.error ErrNoTransaction, db0) ∧
    createGenesis envAllOk db0 = (Except.error ErrNoTransaction, db0) ∧
    addProposerSlashingBlockRoots envAllOk db0 = (Except.error ErrNoTransaction, db0) ∧
    createETH1Deposits envAllOk db0 = (Except.error ErrNoTransaction, db0) ∧
    addAttestationAggregationIndices envAllOk db0 = (Except.error ErrNoTransaction, db0) ∧
    ∀ v : Nat, setVersion envAllOk v db0 = (Except.error ErrNoTransaction, db0) :=
  steps_require_transaction_sentinel envAllOk db0 rfl

/-- Witness for C9 on a pending store already carrying the column. -/
theorem add_attestation_indices_skips_when_column_present_witness :
    addAttestationAggregationIndices envAllOk dbAmbientCol =
      (Except.ok (), { dbAmbientCol with events := dbAmbientCol.events ++
        [Event.queried "t_attestations" "f_aggregation_indices"] }) :=
  add_attestation_indices_skips_when_column_present envAllOk dbAmbientCol attestationsCols
    rfl rfl (by decide)

/-- Witness for C10 on both the standalone and the ambient-transaction uses. -/
theorem column_exists_transaction_handling_witness :
    columnExists envAllOk "t_attestations" "f_aggregation_indices" db0 =
      (queryColumn envAllOk db0.committed "t_attestations" "f_aggregation_indices",
        { committed := db0.committed, tx := none,
          events := ((db0.events ++ [Event.beganTx]) ++
            [Event.queried "t_attestations" "f_aggregation_indices"]) ++
              [Event.cancelledTx] }) ∧
    queryColumn envAllOk store0 "t_attestations" "f_aggregation_indices" ≠
      Except.error ErrNoTransaction ∧
    columnExists envAllOk "t_attestations" "f_aggregation_indices" dbAmbientCol =
      (queryColumn envAllOk attestationsCols "t_attestations" "f_aggregation_indices",
        { dbAmbientCol with events := dbAmbientCol.events ++
          [Event.queried "t_attestations" "f_aggregation_indices"] }) :=
  ⟨column_exists_transaction_handling.1 envAllOk db0 _ _ rfl rfl,
   column_exists_transaction_handling.2.1 envAllOk store0 _ _,
   column_exists_transaction_handling.2.2 envAllOk dbAmbientCol attestationsCols _ _ rfl⟩

end ChaindUpgrader
